import Mathlib

/-!
Shallow embedding of the IRCTC MCP status normalization and derivation layer:
the status/berth decoders (`status_decoders.py`), the PNR derivation functions
(`new_pnr_status.py`, legacy `pnr_functions.py`) and the live-train-status
derivations (`new_train_status_functions.py`, `new_train_status_schemas.py`).

Python strings are modelled as Lean `String`s restricted to ASCII; Python
`int` is modelled as `Int`; functions that can raise are modelled as
`Option`-valued; the network collaborator of `fetch_pnr_status` is abstracted
as an explicit function argument together with a Boolean recording whether it
was invoked.
-/

/-! ### Python string primitives -/

/-- Whitespace characters recognised by Python `str.strip()` (ASCII range). -/
def pyIsSpace (c : Char) : Bool :=
  decide (c.toNat = 32) || decide (c.toNat = 9) || decide (c.toNat = 10) ||
    decide (c.toNat = 13) || decide (c.toNat = 11) || decide (c.toNat = 12)

/-- Python `str.upper()` (ASCII). -/
def pyUpper (s : String) : String :=
  ⟨s.data.map Char.toUpper⟩

/-- Strip leading and trailing whitespace from a character list. -/
def pyStripList (l : List Char) : List Char :=
  ((l.dropWhile pyIsSpace).reverse.dropWhile pyIsSpace).reverse

/-- Python `str.strip()`. -/
def pyStrip (s : String) : String :=
  ⟨pyStripList s.data⟩

/-- Python `str.startswith(pre)`. -/
def pyStartsWith (s pre : String) : Bool :=
  pre.data.isPrefixOf s.data

/-- Core of Python `str.split(sep)` on character lists.
`"".split(sep) = [""]`, and every separator occurrence cuts. -/
def pySplitList (sep : Char) : List Char → List (List Char)
  | [] => [[]]
  | c :: cs =>
    match pySplitList sep cs with
    | [] => [[]]
    | h :: t => if c = sep then [] :: h :: t else (c :: h) :: t

/-- Python `s.split(sep)` for a single-character separator. -/
def pySplit (s : String) (sep : Char) : List String :=
  (pySplitList sep s.data).map (fun l => ⟨l⟩)

/-- Python `str.isdigit()` (ASCII): non-empty and all digits. -/
def py_isdigit (s : String) : Bool :=
  !s.data.isEmpty && s.data.all Char.isDigit

/-- Python `str(x)` for an optional string (`str(None) = "None"`). -/
def pyStrOfOptStr : Option String → String
  | none => "None"
  | some s => s

/-- Python `str(x)`/f-string rendering for an optional integer. -/
def pyStrOfOptInt : Option Int → String
  | none => "None"
  | some n => toString n

/-- Decidable substring search over character lists
(Python `sub in big`). -/
def listContainsSub : List Char → List Char → Bool
  | [], sub => sub.isEmpty
  | c :: t, sub => sub.isPrefixOf (c :: t) || listContainsSub t sub

/-- Python `sub in big` on strings. -/
def strContains (big sub : String) : Bool :=
  listContainsSub big.data sub.data

/-! ### `status_decoders.py` -/

/-- The `STATUS_MAP` dictionary of `status_decoders.py`. -/
def STATUS_MAP : List (String × String) :=
  [("CNF", "Confirmed"),
   ("RAC", "Reservation Against Cancellation"),
   ("WL", "Waitlist"),
   ("CAN", "Cancelled"),
   ("NOSB", "No Seat Berth (Child below 12)"),
   ("REL", "Released"),
   ("NR", "Nor Reported"),
   ("GNWL", "General Waitlist"),
   ("RLWL", "Remote Location Waitlist"),
   ("PQWL", "Pooled Quota Waitlist"),
   ("TQWL", "Tatkal Waitlist"),
   ("RSWL", "Roadside Station Waitlist"),
   ("RQWL", "Request Waitlist"),
   ("CKWL", "Tatkal Waitlist (Old Code)")]

/-- The `BERTH_MAP` dictionary of `status_decoders.py`. -/
def BERTH_MAP : List (String × String) :=
  [("LB", "Lower Berth"),
   ("MB", "Middle Berth"),
   ("UB", "Upper Berth"),
   ("SL", "Side Lower"),
   ("SU", "Side Upper"),
   ("SM", "Side Middle"),
   ("WS", "Window Side"),
   ("MS", "Middle Seat"),
   ("AS", "Aisle Seat")]

/-- `decode_ticket_status` from `status_decoders.py`; the argument is
`str | None`. -/
def decode_ticket_status (status_code : Option String) : String :=
  match status_code with
  | none => "Unknown Status"
  | some s =>
    if s = "" then "Unknown Status"
    else
      let code := pyUpper (pyStrip s)
      match STATUS_MAP.lookup code with
      | some label => label
      | none => "Unknown Booking Status Code - (" ++ code ++ ")"

/-- `decode_berth` from `status_decoders.py`. -/
def decode_berth (berth_code : Option String) : String :=
  match berth_code with
  | none => " "
  | some s =>
    if s = "" then " "
    else
      let code := pyUpper (pyStrip s)
      match BERTH_MAP.lookup code with
      | some label => label
      | none => "Unknown Birth Code - " ++ code

/-! ### `format_delay` from `new_train_status_functions.py` -/

/-- `format_delay(delay_minutes)`: render a signed delay in minutes. -/
def format_delay (delay_minutes : Int) : String :=
  if delay_minutes = 0 then "On Time"
  else if delay_minutes > 0 then
    let hours := delay_minutes / 60
    let mins := delay_minutes % 60
    if hours > 0 then
      "Delayed by " ++ toString hours ++ "h " ++ toString mins ++ "m"
    else
      "Delayed by " ++ toString mins ++ " mins"
  else
    let early_mins := -delay_minutes
    "Early by " ++ toString early_mins ++ " mins"

/-! ### `new_pnr_schema.py` / `new_pnr_status.py` -/

/-- The fields of `PassengerStatus` (`new_pnr_schema.py`) consumed by the
embedded derivations. -/
structure PassengerStatus where
  Number : Int
  CurrentStatus : String
  BookingStatusNew : String
deriving DecidableEq

/-- The fields of `PNRData` (`new_pnr_schema.py`) consumed by the embedded
derivations. -/
structure PNRData where
  PassengerStatus : List PassengerStatus
deriving DecidableEq

/-- Root `PNRResponse` with its optional `data` payload. -/
structure PNRResponse where
  data : Option PNRData
deriving DecidableEq

/-- `is_confirmed_or_rac` from `new_pnr_status.py`:
`status.upper().strip()` starts with `"CNF"` or `"RAC"`. -/
def is_confirmed_or_rac (status : String) : Bool :=
  let status_upper := pyStrip (pyUpper status)
  pyStartsWith status_upper "CNF" || pyStartsWith status_upper "RAC"

/-- `fetch_pnr_status` from `new_pnr_status.py`. The whole network
interaction that follows validation is abstracted as the collaborator
`net`; the second component records whether `net` was invoked. -/
def fetch_pnr_status {α : Type} (net : String → Option α) (pnr_no : String) :
    Option α × Bool :=
  if pnr_no.length ≠ 10 ∨ py_isdigit pnr_no = false then (none, false)
  else (net pnr_no, true)

/-- The waitlist-position string computed for one passenger inside
`get_waitlist_position` (`new_pnr_status.py`). List indexing is modelled
with `getElem?`, so an out-of-range access would surface as `none`. -/
def waitlist_position_of (p : PassengerStatus) : Option String :=
  if is_confirmed_or_rac p.CurrentStatus then
    some "Already Confirmed/RAC"
  else
    let booking_parts :=
      if p.BookingStatusNew ≠ "" then pySplit p.BookingStatusNew '/' else []
    if booking_parts.length ≥ 2 then
      match booking_parts[0]?, booking_parts[1]? with
      | some status_type, some position_num =>
        some ("Position " ++ position_num ++ " in " ++
          decode_ticket_status (some status_type) ++ " (" ++ status_type ++ ")")
      | _, _ => none
    else
      some (if p.BookingStatusNew ≠ "" then p.BookingStatusNew else "Unknown")

/-- `get_waitlist_position` from `new_pnr_status.py`; `none` would mean an
uncaught exception. -/
def get_waitlist_position (pnr_status : Option PNRResponse) : Option String :=
  match pnr_status with
  | none => some "PNR data not available."
  | some r =>
    match r.data with
    | none => some "PNR data not available."
    | some d =>
      if d.PassengerStatus = [] then some "No passenger information available."
      else do
        let lines ← d.PassengerStatus.mapM (fun p => do
          let position ← waitlist_position_of p
          let n := toString p.Number
          pure ("Passenger-" ++ n ++ ": " ++ position ++ "\n"))
        let response := String.join lines
        pure (if response ≠ "" then response else "Unable to get waitlist position.")

/-! ### Legacy `pnr_functions.py` -/

/-- The fields of the legacy `Passenger` model (`schemas.py`) consumed by
`getWaitListPosition`; all three are `Optional` in the source. -/
structure Passenger where
  passengerSerialNumber : Option Int
  bookingStatusDetails : Option String
  currentStatus : Option String
deriving DecidableEq

/-- The Python variable `position` in the legacy `getWaitListPosition` holds
either a list of strings (the split result) or the plain string
`"Already Confirmed"`. -/
inductive StrOrStrList where
  | str (s : String)
  | strs (l : List String)
deriving DecidableEq

/-- Python subscripting `position[i]`: a character (as a one-character
string) of a string, or an element of a list; `none` models `IndexError`. -/
def pyIndex : StrOrStrList → Nat → Option String
  | .str s, i => (s.data[i]?).map (fun c => String.mk [c])
  | .strs l, i => l[i]?

/-- One loop iteration of the legacy `getWaitListPosition`
(`pnr_functions.py`): `none` models a raised `IndexError`. -/
def getWaitListPosition_line (p : Passenger) : Option String := do
  let position0 := StrOrStrList.strs (pySplit (pyStrOfOptStr p.bookingStatusDetails) '/')
  let position :=
    if p.currentStatus = some "CNF" ∨ p.currentStatus = some "RAC" then
      StrOrStrList.str "Already Confirmed"
    else position0
  let pos1 ← pyIndex position 1
  let pos0 ← pyIndex position 0
  let n := pyStrOfOptInt p.passengerSerialNumber
  pure ("Passenger-" ++ n ++ ": " ++ pos1 ++ " in " ++
    decode_ticket_status (some pos0) ++ "(" ++ pos0 ++ ")\n")

/-- The legacy `getWaitListPosition` (`pnr_functions.py`); `none` models a
raised exception. -/
def getWaitListPosition (passengers : List Passenger) : Option String := do
  let lines ← passengers.mapM getWaitListPosition_line
  let response := String.join lines
  pure (if response ≠ "" then response else "Unable to get waitlist position.")

/-! ### `new_train_status_schemas.py` -/

/-- A non-stop pass-through point (`NonStopStation`). -/
structure NonStopStation where
  si_no : Int
  station_code : String
  station_name : String
deriving DecidableEq

/-- The fields of `UpcomingStation` consumed by the embedded derivations. -/
structure UpcomingStation where
  si_no : Int
  station_code : String
  station_name : String
  distance_from_current_station_txt : String
  sta : String
  eta : String
  arrival_delay : Int
  platform_number : Int
  non_stops : List NonStopStation
deriving DecidableEq

/-- The fields of `PreviousStation` consumed by the embedded derivations. -/
structure PreviousStation where
  si_no : Int
  station_code : String
  station_name : String
  sta : String
  eta : String
  arrival_delay : Int
  platform_number : Int
  non_stops : List NonStopStation
deriving DecidableEq

/-- The fields of the flat `NewTrainStatusResponse` consumed by the embedded
derivations (its `data` property returns the record itself). -/
structure NewTrainStatusResponse where
  distance_from_source : Int
  total_distance : Int
  si_no : Int
  current_station_code : String
  current_station_name : String
  eta : String
  delay : Int
  status_as_of : String
  upcoming_stations : List UpcomingStation
  previous_stations : List PreviousStation
deriving DecidableEq

/-- `NewTrainStatusResponse.get_progress_percentage`; the Python float
arithmetic on integer distances is modelled exactly over `ℚ`. -/
def get_progress_percentage (t : NewTrainStatusResponse) : ℚ :=
  if t.total_distance = 0 then 0
  else ((t.distance_from_source : ℚ) / (t.total_distance : ℚ)) * 100

/-! ### `get_expected_arrival_at_station` from `new_train_status_functions.py` -/

/-- The message built when the queried code is the current station. -/
def current_station_message (data : NewTrainStatusResponse)
    (station_code_upper : String) : String :=
  let result := "Train is currently at/near " ++ data.current_station_name ++
    " (" ++ station_code_upper ++ ")\n"
  let result := result ++ "  Status: " ++ data.status_as_of ++ "\n"
  let result := if data.eta ≠ "" then result ++ "  ETA: " ++ data.eta ++ "\n" else result
  let result :=
    if data.delay > 0 then result ++ "  " ++ format_delay data.delay else result
  result

/-- The message built for a match in `upcoming_stations`. -/
def upcoming_station_message (station : UpcomingStation)
    (station_code_upper : String) : String :=
  let result := "Arrival at " ++ station.station_name ++ " (" ++
    station_code_upper ++ "):\n"
  let result :=
    if station.sta ≠ "" then result ++ "  Scheduled Arrival: " ++ station.sta ++ "\n"
    else result
  let result :=
    if station.eta ≠ "" then result ++ "  Expected Arrival: " ++ station.eta ++ "\n"
    else result
  let result :=
    if station.arrival_delay ≠ 0 then
      result ++ "  " ++ format_delay station.arrival_delay ++ "\n"
    else result
  let result :=
    if station.platform_number ≠ 0 then
      result ++ "  Platform: " ++ toString station.platform_number ++ "\n"
    else result
  let result :=
    if station.distance_from_current_station_txt ≠ "" then
      result ++ "  Distance: " ++ station.distance_from_current_station_txt
    else result
  result

/-- The message built for a match in `previous_stations`. -/
def previous_station_message (station : PreviousStation)
    (station_code_upper : String) : String :=
  let result := "Train has already passed " ++ station.station_name ++ " (" ++
    station_code_upper ++ "):\n"
  let result :=
    if station.sta ≠ "" then result ++ "  Scheduled Arrival: " ++ station.sta ++ "\n"
    else result
  let result :=
    if station.eta ≠ "" then result ++ "  Actual Arrival: " ++ station.eta ++ "\n"
    else result
  let result :=
    if station.arrival_delay ≠ 0 then
      result ++ "  " ++ format_delay station.arrival_delay ++ "\n"
    else result
  let result :=
    if station.platform_number ≠ 0 then
      result ++ "  Platform: " ++ toString station.platform_number
    else result
  result

/-- The message built for a code found only among non-stop points. -/
def non_stop_message (non_stop : NonStopStation)
    (station_code_upper : String) : String :=
  non_stop.station_name ++ " (" ++ station_code_upper ++
    ") is a non-stop station. Train does not halt here."

/-- The "not found" result of the arrival lookup. -/
def station_not_found_message (station_code_upper : String) : String :=
  "Station " ++ station_code_upper ++ " not found in the train's route"

/-- `get_expected_arrival_at_station(train_status, station_code)`: search the
current station, then upcoming, then previous, then the non-stop points of
`upcoming + previous`, returning on the first case-insensitive match. -/
def get_expected_arrival_at_station (train_status : NewTrainStatusResponse)
    (station_code : String) : String :=
  let station_code_upper := pyUpper station_code
  let data := train_status
  if pyUpper data.current_station_code = station_code_upper then
    current_station_message data station_code_upper
  else
    match data.upcoming_stations.find?
        (fun station => pyUpper station.station_code == station_code_upper) with
    | some station => upcoming_station_message station station_code_upper
    | none =>
      match data.previous_stations.find?
          (fun station => pyUpper station.station_code == station_code_upper) with
      | some station => previous_station_message station station_code_upper
      | none =>
        let all_stations := data.upcoming_stations.map UpcomingStation.non_stops ++
          data.previous_stations.map PreviousStation.non_stops
        match all_stations.findSome? (fun station_non_stops =>
            station_non_stops.find?
              (fun ns => pyUpper ns.station_code == station_code_upper)) with
        | some non_stop => non_stop_message non_stop station_code_upper
        | none => station_not_found_message station_code_upper

/-! ### `get_train_route` from `new_train_status_functions.py` -/

/-- The `(si_no, name, code, is_current)` tuples collected by
`get_train_route` before sorting. -/
def route_entries (data : NewTrainStatusResponse) (include_non_stops : Bool) :
    List (Int × String × String × Bool) :=
  (data.previous_stations.flatMap (fun station =>
    (station.si_no, station.station_name, station.station_code, false) ::
      (if include_non_stops then
        station.non_stops.map (fun ns =>
          (ns.si_no, "[" ++ ns.station_name ++ "]", ns.station_code, false))
       else [])))
  ++ [(data.si_no, data.current_station_name, data.current_station_code, true)]
  ++ (data.upcoming_stations.flatMap (fun station =>
    if station.station_code ≠ "" then
      (station.si_no, station.station_name, station.station_code, false) ::
        (if include_non_stops then
          station.non_stops.map (fun ns =>
            (ns.si_no, "[" ++ ns.station_name ++ "]", ns.station_code, false))
         else [])
    else []))

/-- The sort key comparison `lambda x: x[0]` used by `all_stations.sort`. -/
def route_le (a b : Int × String × String × Bool) : Bool :=
  decide (a.1 ≤ b.1)

/-- Rendering of one collected tuple, with current-station markers. -/
def route_entry_format : Int × String × String × Bool → String
  | (_, name, code, is_current) =>
    if is_current then ">>> " ++ name ++ " (" ++ code ++ ") <<<"
    else name ++ " (" ++ code ++ ")"

/-- `get_train_route(train_status, include_non_stops)`. -/
def get_train_route (train_status : NewTrainStatusResponse)
    (include_non_stops : Bool) : String :=
  let data := train_status
  if data.previous_stations = [] ∧ data.upcoming_stations = [] then
    "No route information available"
  else
    let all_stations := (route_entries data include_non_stops).mergeSort route_le
    let station_entries := all_stations.map route_entry_format
    String.intercalate " -> " station_entries

/-! ### Spec-side definitions used to state refinement claims -/

/-- Spec-side reading of the confirmed-or-RAC classification: the
current-status code, trimmed and then case-folded, starts with `"CNF"` or
`"RAC"` (prefix match). -/
def spec_confirmed_or_rac (status : String) : Bool :=
  pyStartsWith (pyUpper (pyStrip status)) "CNF" ||
    pyStartsWith (pyUpper (pyStrip status)) "RAC"

/-- Spec-side validity of a PNR identifier: exactly 10 decimal digits. -/
def ten_decimal_digits (s : String) : Prop :=
  s.length = 10 ∧ ∀ c ∈ s.data, c.isDigit = true

instance (s : String) : Decidable (ten_decimal_digits s) := by
  unfold ten_decimal_digits
  exact inferInstance

/-- The waitlist report line the specification predicts for one passenger,
amended to match the code: the combined status string is split on every
`"/"` and the first two tokens are used as status-type and position; with
fewer than two tokens the whole string is surfaced verbatim, except that an
empty combined string is surfaced as `"Unknown"`. -/
def spec_waitlist_line (p : PassengerStatus) : String :=
  if is_confirmed_or_rac p.CurrentStatus then
    "Passenger-" ++ toString p.Number ++ ": Already Confirmed/RAC\n"
  else
    let parts := pySplit p.BookingStatusNew '/'
    if h : parts.length ≥ 2 then
      "Passenger-" ++ toString p.Number ++ ": Position " ++ parts[1] ++ " in " ++
        decode_ticket_status (some parts[0]) ++ " (" ++ parts[0] ++ ")\n"
    else
      "Passenger-" ++ toString p.Number ++ ": " ++
        (if p.BookingStatusNew ≠ "" then p.BookingStatusNew else "Unknown") ++ "\n"

/-- The waitlist report line predicted by the claim as stated: the combined
status string is split at the FIRST `"/"` only, the position token being
everything after it. -/
def splitFirst_waitlist_line (p : PassengerStatus) : String :=
  if is_confirmed_or_rac p.CurrentStatus then
    "Passenger-" ++ toString p.Number ++ ": Already Confirmed/RAC\n"
  else
    let s := p.BookingStatusNew
    if '/' ∈ s.data then
      let status_type : String := ⟨s.data.takeWhile (fun c => c != '/')⟩
      let position_num : String := ⟨(s.data.dropWhile (fun c => c != '/')).drop 1⟩
      "Passenger-" ++ toString p.Number ++ ": Position " ++ position_num ++ " in " ++
        decode_ticket_status (some status_type) ++ " (" ++ status_type ++ ")\n"
    else
      "Passenger-" ++ toString p.Number ++ ": " ++ s ++ "\n"

/-! ### Concrete fixtures used by witnesses and counterexamples -/

/-- A non-stop pass-through point attached to `sample_upcoming`. -/
def sample_non_stop : NonStopStation :=
  ⟨4, "NSX", "NonStop X"⟩

/-- A sample upcoming station with one non-stop point. -/
def sample_upcoming : UpcomingStation :=
  ⟨5, "UPC", "Upcoming C", "12 km", "10:00", "10:05", 5, 2, [sample_non_stop]⟩

/-- A sample previously-passed station. -/
def sample_previous : PreviousStation :=
  ⟨1, "PVA", "Prev A", "08:00", "08:02", 2, 1, []⟩

/-- A second sample previously-passed station. -/
def sample_previous2 : PreviousStation :=
  ⟨2, "PVB", "Prev B", "08:30", "08:30", 0, 0, []⟩

/-- A sample live-status record with one previous and one upcoming station. -/
def sample_train : NewTrainStatusResponse :=
  ⟨120, 500, 3, "CUR", "Current B", "09:30", 10, "Status as of now",
    [sample_upcoming], [sample_previous]⟩

/-- A sample live-status record with two previous stations. -/
def sample_train3 : NewTrainStatusResponse :=
  ⟨120, 500, 3, "CUR", "Current B", "09:30", 10, "Status as of now",
    [sample_upcoming], [sample_previous, sample_previous2]⟩

/-- A record with a negative covered distance, admissible for the integer
fields of the upstream schema. -/
def progress_counterexample_record : NewTrainStatusResponse :=
  ⟨-100, 100, 0, "", "", "", 0, "", [], []⟩
/-! ### Helper lemmas -/

theorem toNat_ofNat_of_valid {n : Nat} (h : n < 55296) : (Char.ofNat n).toNat = n := by
  have hv : n.isValidChar := Or.inl h
  simp [Char.ofNat, hv, Char.ofNatAux, Char.toNat, UInt32.toNat]

theorem isPrefixOf_subset :
    ∀ {l₁ l₂ : List Char}, l₁.isPrefixOf l₂ = true → ∀ c ∈ l₁, c ∈ l₂
  | [], _, _, c, hc => absurd hc (List.not_mem_nil c)
  | _ :: _, [], h, _, hc => by simp [List.isPrefixOf] at h
  | a :: as, b :: bs, h, c, hc => by
    simp only [List.isPrefixOf, Bool.and_eq_true, beq_iff_eq] at h
    rcases List.mem_cons.mp hc with rfl | hmem
    · exact h.1 ▸ List.mem_cons_self _ _
    · exact List.mem_cons_of_mem _ (isPrefixOf_subset h.2 c hmem)

theorem isPrefixOf_append_left : ∀ (l r : List Char), l.isPrefixOf (l ++ r) = true
  | [], _ => by simp [List.isPrefixOf]
  | a :: as, r => by
    simp only [List.cons_append, List.isPrefixOf, beq_self_eq_true, Bool.true_and]
    exact isPrefixOf_append_left as r

theorem listContainsSub_of_isPrefixOf {b sub : List Char}
    (h : sub.isPrefixOf b = true) : listContainsSub b sub = true := by
  cases b with
  | nil =>
    cases sub with
    | nil => rfl
    | cons c t => simp [List.isPrefixOf] at h
  | cons c t => simp [listContainsSub, h]

theorem mem_of_listContainsSub :
    ∀ {b sub : List Char}, listContainsSub b sub = true → ∀ c ∈ sub, c ∈ b
  | [], sub, h, c, hc => by
    simp only [listContainsSub, List.isEmpty_iff] at h
    subst h
    exact absurd hc (List.not_mem_nil c)
  | d :: t, sub, h, c, hc => by
    simp only [listContainsSub, Bool.or_eq_true] at h
    rcases h with h | h
    · exact isPrefixOf_subset h c hc
    · exact List.mem_cons_of_mem _ (mem_of_listContainsSub h c hc)

theorem listContainsSub_append_middle :
    ∀ (l₁ sub l₂ : List Char), listContainsSub (l₁ ++ (sub ++ l₂)) sub = true
  | [], sub, l₂ => by
    simpa using listContainsSub_of_isPrefixOf (isPrefixOf_append_left sub l₂)
  | c :: t, sub, l₂ => by
    simp only [List.cons_append, listContainsSub, Bool.or_eq_true]
    exact Or.inr (listContainsSub_append_middle t sub l₂)

theorem digitChar_isDigit {n : Nat} (h : n < 10) : (Nat.digitChar n).isDigit = true := by
  interval_cases n <;> decide

theorem toDigitsCore_chars :
    ∀ (f : Nat), ∀ (n : Nat) (l : List Char) (c : Char),
      c ∈ Nat.toDigitsCore 10 f n l → c.isDigit = true ∨ c ∈ l := by
  intro f
  induction f with
  | zero =>
    intro n l c hc
    right
    simpa [Nat.toDigitsCore] using hc
  | succ f ih =>
    intro n l c hc
    simp only [Nat.toDigitsCore] at hc
    by_cases hz : n / 10 = 0
    · rw [if_pos hz] at hc
      rcases List.mem_cons.mp hc with rfl | hmem
      · exact Or.inl (digitChar_isDigit (Nat.mod_lt n (by norm_num)))
      · exact Or.inr hmem
    · rw [if_neg hz] at hc
      rcases ih (n / 10) (Nat.digitChar (n % 10) :: l) c hc with hd | hmem
      · exact Or.inl hd
      · rcases List.mem_cons.mp hmem with rfl | hmem'
        · exact Or.inl (digitChar_isDigit (Nat.mod_lt n (by norm_num)))
        · exact Or.inr hmem'

theorem nat_toString_chars (n : Nat) : ∀ c ∈ (toString n).data, c.isDigit = true := by
  intro c hc
  have hd : (toString n).data = Nat.toDigitsCore 10 (n + 1) n [] := rfl
  rw [hd] at hc
  rcases toDigitsCore_chars (n + 1) n [] c hc with h | h
  · exact h
  · exact absurd h (List.not_mem_nil c)

theorem int_toString_chars (i : Int) :
    ∀ c ∈ (toString i).data, c.isDigit = true ∨ c = '-' := by
  cases i with
  | ofNat m =>
    intro c hc
    exact Or.inl (nat_toString_chars m c hc)
  | negSucc m =>
    intro c hc
    have hd : (toString (Int.negSucc m)).data = '-' :: (toString (m + 1)).data := rfl
    rw [hd] at hc
    rcases List.mem_cons.mp hc with rfl | hmem
    · exact Or.inr rfl
    · exact Or.inl (nat_toString_chars (m + 1) c hmem)

theorem pyIsSpace_toUpper (c : Char) : pyIsSpace (Char.toUpper c) = pyIsSpace c := by
  by_cases h : c.toNat ≥ 97 ∧ c.toNat ≤ 122
  · have h1 : Char.toUpper c = Char.ofNat (c.toNat - 32) := by
      simp [Char.toUpper, h]
    have h2 : (Char.ofNat (c.toNat - 32)).toNat = c.toNat - 32 :=
      toNat_ofNat_of_valid (by omega)
    have hl : pyIsSpace c = false := by
      simp only [pyIsSpace, Bool.or_eq_false_iff, decide_eq_false_iff_not]
      omega
    have hr : pyIsSpace (Char.ofNat (c.toNat - 32)) = false := by
      simp only [pyIsSpace, h2, Bool.or_eq_false_iff, decide_eq_false_iff_not]
      omega
    rw [h1, hr, hl]
  · have h1 : Char.toUpper c = c := by
      simp [Char.toUpper, h]
    rw [h1]

theorem pyStrip_pyUpper_comm (s : String) :
    pyStrip (pyUpper s) = pyUpper (pyStrip s) := by
  have hfun : (pyIsSpace ∘ Char.toUpper) = pyIsSpace := funext pyIsSpace_toUpper
  apply String.ext
  show pyStripList (s.data.map Char.toUpper) = (pyStripList s.data).map Char.toUpper
  unfold pyStripList
  rw [List.dropWhile_map, hfun, ← List.map_reverse, List.dropWhile_map, hfun,
    ← List.map_reverse]

theorem data_head?_append (s t : String) (h : s.data ≠ []) :
    (s ++ t).data.head? = s.data.head? := by
  rw [String.data_append, List.head?_append]
  cases hs : s.data with
  | nil => exact absurd hs h
  | cons a l => rfl

theorem data_getLast?_append (s t : String) (h : t.data ≠ []) :
    (s ++ t).data.getLast? = t.data.getLast? := by
  rw [String.data_append, List.getLast?_append]
  cases hl : t.data.getLast? with
  | none => exact absurd (List.getLast?_eq_none_iff.mp hl) h
  | some c => rfl

theorem string_ne_of_head_ne {s t : String} (h : s.data.head? ≠ t.data.head?) :
    s ≠ t :=
  fun he => h (he ▸ rfl)

theorem string_ne_of_getLast_ne {s t : String}
    (h : s.data.getLast? ≠ t.data.getLast?) : s ≠ t :=
  fun he => h (he ▸ rfl)

theorem foldl_append_data (l : List String) : ∀ init : String,
    (l.foldl (fun r s => r ++ s) init).data = init.data ++ (l.map String.data).flatten := by
  induction l with
  | nil => intro init; simp
  | cons a t ih =>
    intro init
    simp only [List.foldl_cons, ih, String.data_append, List.map_cons, List.flatten_cons,
      List.append_assoc]

theorem string_join_data (l : List String) :
    (String.join l).data = (l.map String.data).flatten := by
  simpa [String.join] using foldl_append_data l ""

theorem mapM_option_eq_some {α β : Type} (g : α → Option β) (h : α → β) :
    ∀ l : List α, (∀ a ∈ l, g a = some (h a)) → l.mapM g = some (l.map h)
  | [], _ => by simp [List.mapM_nil]; rfl
  | a :: t, hg => by
    rw [List.mapM_cons, hg a (List.mem_cons_self a t),
      mapM_option_eq_some g h t (fun b hb => hg b (List.mem_cons_of_mem a hb))]
    rfl

theorem mapM_option_isSome {α β : Type} (g : α → Option β) :
    ∀ l : List α, (∀ a ∈ l, (g a).isSome = true) → (l.mapM g).isSome = true
  | [], _ => by simp [List.mapM_nil]; rfl
  | a :: t, hg => by
    obtain ⟨b, hb⟩ := Option.isSome_iff_exists.mp (hg a (List.mem_cons_self a t))
    obtain ⟨bs, hbs⟩ := Option.isSome_iff_exists.mp
      (mapM_option_isSome g t (fun x hx => hg x (List.mem_cons_of_mem a hx)))
    rw [List.mapM_cons, hb, hbs]
    rfl

theorem route_le_trans (a b c : Int × String × String × Bool)
    (h1 : route_le a b = true) (h2 : route_le b c = true) : route_le a c = true := by
  simp only [route_le, decide_eq_true_eq] at h1 h2 ⊢
  omega

theorem route_le_total (a b : Int × String × String × Bool) :
    (route_le a b || route_le b a) = true := by
  simp only [route_le, Bool.or_eq_true, decide_eq_true_eq]
  omega

theorem route_mergeSort_unique {l₁ l₂ : List (Int × String × String × Bool)}
    (hp : l₁.Perm l₂) (hn : (l₁.map (fun e => e.1)).Nodup) :
    l₁.mergeSort route_le = l₂.mergeSort route_le := by
  have hs₁ := List.sorted_mergeSort route_le_trans route_le_total l₁
  have hs₂ := List.sorted_mergeSort route_le_trans route_le_total l₂
  have hp₁ : (l₁.mergeSort route_le).Perm l₁ := List.mergeSort_perm l₁ route_le
  have hp₂ : (l₂.mergeSort route_le).Perm l₂ := List.mergeSort_perm l₂ route_le
  have hperm : (l₁.mergeSort route_le).Perm (l₂.mergeSort route_le) :=
    hp₁.trans (hp.trans hp₂.symm)
  have hn₁ : ((l₁.mergeSort route_le).map (fun e => e.1)).Nodup :=
    ((hp₁.map (fun e => e.1)).nodup_iff).mpr hn
  have hn₂ : ((l₂.mergeSort route_le).map (fun e => e.1)).Nodup :=
    (((hperm.symm).map (fun e => e.1)).nodup_iff).mpr hn₁
  have hlt₁ : List.Pairwise
      (fun a b : Int × String × String × Bool => a.1 < b.1) (l₁.mergeSort route_le) := by
    have hne := List.pairwise_map.mp hn₁
    exact (hs₁.and hne).imp
      (fun h => lt_of_le_of_ne (of_decide_eq_true h.1) h.2)
  have hlt₂ : List.Pairwise
      (fun a b : Int × String × String × Bool => a.1 < b.1) (l₂.mergeSort route_le) := by
    have hne := List.pairwise_map.mp hn₂
    exact (hs₂.and hne).imp
      (fun h => lt_of_le_of_ne (of_decide_eq_true h.1) h.2)
  exact @List.eq_of_perm_of_sorted _ _
    ⟨fun a b h1 h2 => (lt_asymm h1 h2).elim⟩ _ _ hperm hlt₁ hlt₂

theorem route_entries_perm (t : NewTrainStatusResponse)
    (prev' : List PreviousStation) (upc' : List UpcomingStation) (inc : Bool)
    (hp : t.previous_stations.Perm prev') (hu : t.upcoming_stations.Perm upc') :
    (route_entries { t with previous_stations := prev', upcoming_stations := upc' } inc).Perm
      (route_entries t inc) := by
  simp only [route_entries]
  exact ((hp.symm.flatMap_right _).append (List.Perm.refl _)).append (hu.symm.flatMap_right _)

theorem append_data_ne_nil_left {a : String} (t : String) (h : a.data ≠ []) :
    (a ++ t).data ≠ [] := by
  rw [String.data_append]
  simp [h]

/-- C2: `format_delay` returns "On Time" iff the delay is zero, mentions
"Early" iff the delay is negative (rendered as absolute minutes, never split
into hours), and renders positive delays as "Delayed by {h}h {m}m" when the
hour component is positive and "Delayed by {m} mins" otherwise; in
particular `format_delay 67 = "Delayed by 1h 7m"`. -/
theorem format_delay_spec (d : Int) :
    (format_delay d = "On Time" ↔ d = 0) ∧
    (strContains (format_delay d) "Early" = true ↔ d < 0) ∧
    (d < 0 → format_delay d = "Early by " ++ toString (-d) ++ " mins") ∧
    (0 < d → 0 < d / 60 →
      format_delay d =
        "Delayed by " ++ toString (d / 60) ++ "h " ++ toString (d % 60) ++ "m") ∧
    (0 < d → d / 60 = 0 →
      format_delay d = "Delayed by " ++ toString (d % 60) ++ " mins") ∧
    format_delay 67 = "Delayed by 1h 7m" := by
  have hneg : d < 0 → format_delay d = "Early by " ++ toString (-d) ++ " mins" := by
    intro h
    simp only [format_delay]
    rw [if_neg (by omega), if_neg (by omega)]
  have hpos1 : 0 < d → 0 < d / 60 →
      format_delay d =
        "Delayed by " ++ toString (d / 60) ++ "h " ++ toString (d % 60) ++ "m" := by
    intro h1 h2
    simp only [format_delay]
    rw [if_neg (by omega), if_pos (by omega), if_pos h2]
  have hpos2 : 0 < d → d / 60 = 0 →
      format_delay d = "Delayed by " ++ toString (d % 60) ++ " mins" := by
    intro h1 h2
    simp only [format_delay]
    rw [if_neg (by omega), if_pos (by omega), if_neg (by omega)]
  have hDB : ("Delayed by " : String).data ≠ [] := by decide
  have hEB : ("Early by " : String).data ≠ [] := by decide
  have hne1 : ∀ a b : String,
      "Delayed by " ++ a ++ "h " ++ b ++ "m" ≠ "On Time" := by
    intro a b
    have h2 := append_data_ne_nil_left a hDB
    have h3 := append_data_ne_nil_left "h " h2
    have h4 := append_data_ne_nil_left b h3
    apply string_ne_of_head_ne
    rw [data_head?_append _ _ h4, data_head?_append _ _ h3, data_head?_append _ _ h2,
      data_head?_append _ _ hDB]
    decide
  have hne2 : ∀ a : String, "Delayed by " ++ a ++ " mins" ≠ "On Time" := by
    intro a
    have h2 := append_data_ne_nil_left a hDB
    apply string_ne_of_head_ne
    rw [data_head?_append _ _ h2, data_head?_append _ _ hDB]
    decide
  have hne3 : ∀ a : String, "Early by " ++ a ++ " mins" ≠ "On Time" := by
    intro a
    have h2 := append_data_ne_nil_left a hEB
    apply string_ne_of_head_ne
    rw [data_head?_append _ _ h2, data_head?_append _ _ hEB]
    decide
  refine ⟨?_, ?_, hneg, hpos1, hpos2, by decide⟩
  · constructor
    · intro h
      by_contra hne
      rcases lt_trichotomy d 0 with hlt | heq | hgt
      · exact hne3 _ (hneg hlt ▸ h)
      · exact hne heq
      · by_cases hh : 0 < d / 60
        · exact hne1 _ _ ((hpos1 hgt hh) ▸ h)
        · have hz : d / 60 = 0 := by omega
          exact hne2 _ ((hpos2 hgt hz) ▸ h)
    · intro h
      simp [format_delay, h]
  · constructor
    · intro h
      by_contra hnot
      have hge : 0 ≤ d := by omega
      have hE : 'E' ∈ (format_delay d).data := by
        have := mem_of_listContainsSub h 'E' (by decide)
        exact this
      rcases lt_or_eq_of_le hge with hgt | heq
      · by_cases hh : 0 < d / 60
        · rw [hpos1 hgt hh] at hE
          simp only [String.data_append, List.mem_append] at hE
          rcases hE with (((hE | hE) | hE) | hE) | hE
          · exact absurd hE (by decide)
          · rcases int_toString_chars _ 'E' hE with hd | hd <;> simp at hd
          · exact absurd hE (by decide)
          · rcases int_toString_chars _ 'E' hE with hd | hd <;> simp at hd
          · exact absurd hE (by decide)
        · have hz : d / 60 = 0 := by omega
          rw [hpos2 hgt hz] at hE
          simp only [String.data_append, List.mem_append] at hE
          rcases hE with (hE | hE) | hE
          · exact absurd hE (by decide)
          · rcases int_toString_chars _ 'E' hE with hd | hd <;> simp at hd
          · exact absurd hE (by decide)
      · rw [← heq] at hE
        exact absurd hE (by decide)
    · intro h
      rw [hneg h]
      show listContainsSub ("Early by " ++ toString (-d) ++ " mins").data
        ("Early" : String).data = true
      have hsplit : ("Early by " ++ toString (-d) ++ " mins").data =
          ("Early" : String).data ++
            ((" by " : String).data ++ (toString (-d)).data ++ (" mins" : String).data) := by
        simp only [String.data_append]
        simp
      rw [hsplit]
      exact listContainsSub_of_isPrefixOf
        (isPrefixOf_append_left ("Early" : String).data _)

theorem format_delay_spec_witness :
    (0 < (67 : Int) ∧ 0 < (67 : Int) / 60 ∧
      format_delay 67 = "Delayed by " ++ toString ((67 : Int) / 60) ++ "h " ++
        toString ((67 : Int) % 60) ++ "m") ∧
    ((-5 : Int) < 0 ∧ format_delay (-5) = "Early by " ++ toString (-(-5 : Int)) ++ " mins") :=
  ⟨⟨by decide, by decide, (format_delay_spec 67).2.2.2.1 (by decide) (by decide)⟩,
   ⟨by decide, (format_delay_spec (-5)).2.2.1 (by decide)⟩⟩

/-- C6: the confirmed-or-RAC classification used by the coach/berth,
waitlist, and summary derivations holds iff the status, trimmed and
case-folded, starts with "CNF" or "RAC"; it is a prefix match, so values
with appended descriptive suffixes still classify as confirmed. -/
theorem confirmed_or_rac_prefix_match (s : String) :
    is_confirmed_or_rac s = spec_confirmed_or_rac s ∧
    is_confirmed_or_rac "CNF/B2/34" = true ∧
    is_confirmed_or_rac "rac 2/21" = true := by
  refine ⟨?_, by decide, by decide⟩
  simp only [is_confirmed_or_rac, spec_confirmed_or_rac, pyStrip_pyUpper_comm]

/-- C7: `fetch_pnr_status` rejects any input that is not exactly 10 decimal
digits with the unavailable outcome before any network access, and the
network collaborator is reachable exactly for valid identifiers. -/
theorem fetch_pnr_validation {α : Type} (net : String → Option α) (pnr_no : String) :
    (¬ ten_decimal_digits pnr_no → fetch_pnr_status net pnr_no = (none, false)) ∧
    ((fetch_pnr_status net pnr_no).2 = true ↔ ten_decimal_digits pnr_no) := by
  have hequiv : (pnr_no.length ≠ 10 ∨ py_isdigit pnr_no = false) ↔
      ¬ ten_decimal_digits pnr_no := by
    unfold ten_decimal_digits py_isdigit
    constructor
    · rintro (h | h) ⟨h1, h2⟩
      · exact h h1
      · have hne : pnr_no.data ≠ [] := by
          intro hnil
          rw [show pnr_no.length = pnr_no.data.length from rfl, hnil] at h1
          simp at h1
        have hall : pnr_no.data.all Char.isDigit = true :=
          List.all_eq_true.mpr h2
        rw [hall] at h
        simp only [Bool.and_true, Bool.not_eq_false'] at h
        exact hne (List.isEmpty_iff.mp h)
    · intro h
      by_contra hno
      push_neg at hno
      obtain ⟨h1, h2⟩ := hno
      apply h
      refine ⟨h1, ?_⟩
      have h2' : (!pnr_no.data.isEmpty && pnr_no.data.all Char.isDigit) = true := by
        cases hb : !pnr_no.data.isEmpty && pnr_no.data.all Char.isDigit
        · exact absurd hb h2
        · rfl
      exact fun c hc => List.all_eq_true.mp (Bool.and_elim_right h2') c hc
  refine ⟨?_, ?_, ?_⟩
  · intro h
    simp only [fetch_pnr_status]
    rw [if_pos (hequiv.mpr h)]
  · intro h
    by_contra hno
    simp only [fetch_pnr_status] at h
    rw [if_pos (hequiv.mpr hno)] at h
    simp at h
  · intro h
    simp only [fetch_pnr_status]
    rw [if_neg (fun hc => (hequiv.mp hc) h)]

theorem fetch_pnr_validation_witness :
    ¬ ten_decimal_digits "12345abcde" ∧
    fetch_pnr_status (fun _ => (none : Option Unit)) "12345abcde" = (none, false) :=
  ⟨by decide,
    (fetch_pnr_validation (fun _ => (none : Option Unit)) "12345abcde").1 (by decide)⟩

/-- C8 counterexample: on empty/absent input the berth decoder returns the
single space " ", which is not an "unknown" sentinel label and differs from
the status decoder's sentinel. -/
theorem decode_berth_empty_counterexample :
    decode_berth none = " " ∧ decode_berth (some "") = " " ∧
    strContains (pyUpper (decode_berth none)) "UNKNOWN" = false ∧
    decode_berth none ≠ decode_ticket_status none := by
  refine ⟨by decide, by decide, by decide, by decide⟩

/-- C8 (amended): the decoders are total; empty/absent input yields
"Unknown Status" from the status decoder but the single-space string from
the berth decoder; a code missing from the fixed table yields a fallback
label embedding the normalized code verbatim; and every code in the fixed
tables decodes to a non-empty label distinct from the unknown-fallback
format. -/
theorem decoders_total_amended (code : String) :
    (decode_ticket_status none = "Unknown Status" ∧
      decode_ticket_status (some "") = "Unknown Status" ∧
      decode_berth none = " " ∧ decode_berth (some "") = " ") ∧
    (code ≠ "" → STATUS_MAP.lookup (pyUpper (pyStrip code)) = none →
      decode_ticket_status (some code) =
        "Unknown Booking Status Code - (" ++ pyUpper (pyStrip code) ++ ")" ∧
      strContains (decode_ticket_status (some code)) (pyUpper (pyStrip code)) = true) ∧
    (code ≠ "" → BERTH_MAP.lookup (pyUpper (pyStrip code)) = none →
      decode_berth (some code) = "Unknown Birth Code - " ++ pyUpper (pyStrip code)) ∧
    (∀ kv ∈ STATUS_MAP, decode_ticket_status (some kv.1) ≠ "" ∧
      pyStartsWith (decode_ticket_status (some kv.1)) "Unknown" = false) ∧
    (∀ kv ∈ BERTH_MAP, decode_berth (some kv.1) ≠ "" ∧
      pyStartsWith (decode_berth (some kv.1)) "Unknown" = false) := by
  refine ⟨by decide, ?_, ?_, by decide, by decide⟩
  · intro h1 h2
    have heq : decode_ticket_status (some code) =
        "Unknown Booking Status Code - (" ++ pyUpper (pyStrip code) ++ ")" := by
      simp only [decode_ticket_status]
      rw [if_neg h1, h2]
    refine ⟨heq, ?_⟩
    rw [heq]
    show listContainsSub
      ("Unknown Booking Status Code - (" ++ pyUpper (pyStrip code) ++ ")").data
      (pyUpper (pyStrip code)).data = true
    rw [String.data_append, String.data_append, List.append_assoc]
    exact listContainsSub_append_middle _ _ _
  · intro h1 h2
    simp only [decode_berth]
    rw [if_neg h1, h2]

theorem decoders_total_amended_witness :
    ("xq" : String) ≠ "" ∧ STATUS_MAP.lookup (pyUpper (pyStrip "xq")) = none ∧
    decode_ticket_status (some "xq") =
      "Unknown Booking Status Code - (" ++ pyUpper (pyStrip "xq") ++ ")" :=
  ⟨by decide, by decide,
    ((decoders_total_amended "xq").2.1 (by decide) (by decide)).1⟩

theorem waitlist_position_of_isSome (p : PassengerStatus) :
    (waitlist_position_of p).isSome = true := by
  unfold waitlist_position_of
  by_cases h1 : is_confirmed_or_rac p.CurrentStatus
  · rw [if_pos h1]
    rfl
  · rw [if_neg h1]
    by_cases h2 :
        (if p.BookingStatusNew ≠ "" then pySplit p.BookingStatusNew '/' else []).length ≥ 2
    · rw [if_pos h2]
      obtain ⟨a, ha⟩ : ∃ a,
          (if p.BookingStatusNew ≠ "" then pySplit p.BookingStatusNew '/' else [])[0]? =
            some a :=
        ⟨_, List.getElem?_eq_getElem (by omega)⟩
      obtain ⟨b, hb⟩ : ∃ b,
          (if p.BookingStatusNew ≠ "" then pySplit p.BookingStatusNew '/' else [])[1]? =
            some b :=
        ⟨_, List.getElem?_eq_getElem (by omega)⟩
      rw [ha, hb]
      rfl
    · rw [if_neg h2]
      rfl

/-- C9: the legacy waitlist parser raises (models as `none`) on a
non-confirmed passenger whose combined booking-status string has no "/",
while the hardened parser returns a string on every input. -/
theorem waitlist_parser_hardening :
    getWaitListPosition [⟨some 1, some "GNWL", some "WL"⟩] = none ∧
    ∀ pnr_status : Option PNRResponse, (get_waitlist_position pnr_status).isSome = true := by
  constructor
  · decide
  · intro pnr
    rcases pnr with _ | ⟨_ | d⟩
    · rfl
    · rfl
    · simp only [get_waitlist_position]
      by_cases hps : d.PassengerStatus = []
      · rw [if_pos hps]
        rfl
      · rw [if_neg hps]
        have hm := mapM_option_isSome
          (fun p => do
            let position ← waitlist_position_of p
            let n := toString p.Number
            pure ("Passenger-" ++ n ++ ": " ++ position ++ "\n"))
          d.PassengerStatus
          (fun p _ => by
            obtain ⟨v, hv⟩ := Option.isSome_iff_exists.mp (waitlist_position_of_isSome p)
            simp only [hv]
            rfl)
        obtain ⟨lines, hlines⟩ := Option.isSome_iff_exists.mp hm
        rw [hlines]
        rfl

/-- C10: for a legacy passenger whose current status is exactly "CNF" or
"RAC", the split variable is overwritten with the string
"Already Confirmed" and the line formatting indexes its characters, so the
emitted line is the garbled
"Passenger-n: l in Unknown Booking Status Code - (A)(A)" and the intended
"Already Confirmed" text never appears whole in it. -/
theorem legacy_confirmed_garbled (p : Passenger)
    (h : p.currentStatus = some "CNF" ∨ p.currentStatus = some "RAC") :
    getWaitListPosition_line p =
      some ("Passenger-" ++ pyStrOfOptInt p.passengerSerialNumber ++
        ": l in Unknown Booking Status Code - (A)(A)\n") ∧
    strContains ("Passenger-" ++ pyStrOfOptInt p.passengerSerialNumber ++
      ": l in Unknown Booking Status Code - (A)(A)\n") "Already Confirmed" = false := by
  constructor
  · simp only [getWaitListPosition_line]
    rw [if_pos h]
    rw [show pyIndex (StrOrStrList.str "Already Confirmed") 1 = some "l" from by decide,
      show pyIndex (StrOrStrList.str "Already Confirmed") 0 = some "A" from by decide]
    simp only [Option.bind_eq_bind, Option.some_bind]
    apply congrArg
    rw [show decode_ticket_status (some "A") = "Unknown Booking Status Code - (A)"
      from by decide]
    apply String.ext
    simp [String.data_append]
  · cases hn : p.passengerSerialNumber with
    | none =>
      simp only [pyStrOfOptInt]
      decide
    | some i =>
      simp only [pyStrOfOptInt]
      cases hc : strContains ("Passenger-" ++ toString i ++
          ": l in Unknown Booking Status Code - (A)(A)\n") "Already Confirmed" with
      | false => rfl
      | true =>
        exfalso
        have hf : 'f' ∈ ("Passenger-" ++ toString i ++
            ": l in Unknown Booking Status Code - (A)(A)\n").data :=
          mem_of_listContainsSub hc 'f' (by decide)
        simp only [String.data_append, List.mem_append] at hf
        rcases hf with (hf | hf) | hf
        · exact absurd hf (by decide)
        · rcases int_toString_chars i 'f' hf with hd | hd <;> simp at hd
        · exact absurd hf (by decide)

theorem legacy_confirmed_garbled_witness :
    ((⟨some 4, some "GNWL/12", some "CNF"⟩ : Passenger).currentStatus = some "CNF" ∨
      (⟨some 4, some "GNWL/12", some "CNF"⟩ : Passenger).currentStatus = some "RAC") ∧
    getWaitListPosition_line ⟨some 4, some "GNWL/12", some "CNF"⟩ =
      some ("Passenger-" ++ pyStrOfOptInt (some 4) ++
        ": l in Unknown Booking Status Code - (A)(A)\n") :=
  ⟨Or.inl rfl, (legacy_confirmed_garbled ⟨some 4, some "GNWL/12", some "CNF"⟩ (Or.inl rfl)).1⟩

theorem waitlist_line_agrees (p : PassengerStatus) :
    (do
      let position ← waitlist_position_of p
      let n := toString p.Number
      pure ("Passenger-" ++ n ++ ": " ++ position ++ "\n")) = some (spec_waitlist_line p) := by
  by_cases h1 : is_confirmed_or_rac p.CurrentStatus
  · simp only [waitlist_position_of, spec_waitlist_line, if_pos h1, Option.bind_eq_bind,
      Option.some_bind]
    apply congrArg
    apply String.ext
    simp [String.data_append]
  · by_cases h2 : p.BookingStatusNew ≠ ""
    · by_cases h3 : (pySplit p.BookingStatusNew '/').length ≥ 2
      · simp only [waitlist_position_of, spec_waitlist_line, if_neg h1, if_pos h2,
          if_pos h3, dif_pos h3]
        rw [List.getElem?_eq_getElem (show 0 < (pySplit p.BookingStatusNew '/').length
            by omega),
          List.getElem?_eq_getElem (show 1 < (pySplit p.BookingStatusNew '/').length
            by omega)]
        simp only [Option.bind_eq_bind, Option.some_bind]
        apply congrArg
        apply String.ext
        simp [String.data_append]
      · simp only [waitlist_position_of, spec_waitlist_line, if_neg h1, if_pos h2,
          if_neg h3, dif_neg h3, Option.bind_eq_bind, Option.some_bind]
        apply congrArg
        apply String.ext
        simp [String.data_append]
    · have heq : p.BookingStatusNew = "" := not_ne_iff.mp h2
      simp only [waitlist_position_of, spec_waitlist_line, if_neg h1, heq]
      simp only [pySplit, pySplitList, ne_eq, not_true_eq_false, if_false,
        List.map_cons, List.map_nil]
      simp [Option.bind_eq_bind, Option.some_bind]

theorem spec_waitlist_line_ne_nil (p : PassengerStatus) :
    (spec_waitlist_line p).data ≠ [] := by
  unfold spec_waitlist_line
  by_cases h1 : is_confirmed_or_rac p.CurrentStatus
  · rw [if_pos h1]
    repeat apply append_data_ne_nil_left
    decide
  · rw [if_neg h1]
    by_cases h3 : (pySplit p.BookingStatusNew '/').length ≥ 2
    · rw [dif_pos h3]
      repeat apply append_data_ne_nil_left
      decide
    · rw [dif_neg h3]
      repeat apply append_data_ne_nil_left
      decide

/-- C3 (amended): for every PNR record with a non-empty passenger list the
waitlist report emits exactly the per-passenger lines predicted by the
(amended) specification reading, and the combined string "GNWL/12" yields
"Position 12 in General Waitlist (GNWL)". -/
theorem waitlist_report_amended (d : PNRData) (hne : d.PassengerStatus ≠ []) :
    get_waitlist_position (some ⟨some d⟩) =
      some (String.join (d.PassengerStatus.map spec_waitlist_line)) ∧
    get_waitlist_position (some ⟨some ⟨[⟨1, "WL", "GNWL/12"⟩]⟩⟩) =
      some "Passenger-1: Position 12 in General Waitlist (GNWL)\n" := by
  refine ⟨?_, by decide⟩
  simp only [get_waitlist_position]
  rw [if_neg hne]
  rw [mapM_option_eq_some _ spec_waitlist_line d.PassengerStatus
    (fun p _ => waitlist_line_agrees p)]
  simp only [Option.bind_eq_bind, Option.some_bind]
  have hjoin : String.join (d.PassengerStatus.map spec_waitlist_line) ≠ "" := by
    cases hps : d.PassengerStatus with
    | nil => exact absurd hps hne
    | cons q rest =>
      intro hemp
      have hd := string_join_data ((q :: rest).map spec_waitlist_line)
      rw [hemp] at hd
      simp only [List.map_cons, List.flatten, List.map] at hd
      have hq := spec_waitlist_line_ne_nil q
      exact hq (List.append_eq_nil.mp hd.symm).1
  rw [if_pos hjoin]
  rfl

theorem waitlist_report_amended_witness :
    (⟨[⟨1, "WL", "GNWL/12"⟩]⟩ : PNRData).PassengerStatus ≠ [] ∧
    get_waitlist_position (some ⟨some ⟨[⟨1, "WL", "GNWL/12"⟩]⟩⟩) =
      some (String.join ((⟨[⟨1, "WL", "GNWL/12"⟩]⟩ : PNRData).PassengerStatus.map
        spec_waitlist_line)) :=
  ⟨by decide, (waitlist_report_amended ⟨[⟨1, "WL", "GNWL/12"⟩]⟩ (by decide)).1⟩

/-- C3 counterexample: for the combined booking-status string "GNWL/12/34"
the code takes the first two "/"-separated tokens ("Position 12"), while
the claim's split-at-first-"/" reading predicts "Position 12/34". -/
theorem waitlist_split_counterexample :
    get_waitlist_position (some ⟨some ⟨[⟨1, "WL", "GNWL/12/34"⟩]⟩⟩) =
      some "Passenger-1: Position 12 in General Waitlist (GNWL)\n" ∧
    String.join ([(⟨1, "WL", "GNWL/12/34"⟩ : PassengerStatus)].map splitFirst_waitlist_line) =
      "Passenger-1: Position 12/34 in General Waitlist (GNWL)\n" ∧
    get_waitlist_position (some ⟨some ⟨[⟨1, "WL", "GNWL/12/34"⟩]⟩⟩) ≠
      some (String.join ([(⟨1, "WL", "GNWL/12/34"⟩ : PassengerStatus)].map
        splitFirst_waitlist_line)) := by
  refine ⟨by decide, by decide, by decide⟩

/-- C5 counterexample: with a negative covered distance (admissible for the
schema's integer fields) the premise covered ≤ total holds but the result
is negative, outside [0, 100]. -/
theorem progress_percentage_counterexample :
    progress_counterexample_record.distance_from_source ≤
      progress_counterexample_record.total_distance ∧
    get_progress_percentage progress_counterexample_record < 0 := by
  constructor
  · decide
  · norm_num [get_progress_percentage, progress_counterexample_record]

/-- C5 (amended): the progress percentage is 0 when the total distance is 0,
is covered/total*100 otherwise, and lies in [0, 100] whenever
0 ≤ covered ≤ total. -/
theorem progress_percentage_amended (t : NewTrainStatusResponse) :
    (t.total_distance = 0 → get_progress_percentage t = 0) ∧
    (t.total_distance ≠ 0 → get_progress_percentage t =
      (t.distance_from_source : ℚ) / (t.total_distance : ℚ) * 100) ∧
    (0 ≤ t.distance_from_source → t.distance_from_source ≤ t.total_distance →
      0 ≤ get_progress_percentage t ∧ get_progress_percentage t ≤ 100) := by
  refine ⟨fun h => by simp [get_progress_percentage, h],
    fun h => by simp [get_progress_percentage, h], ?_⟩
  intro h1 h2
  by_cases hz : t.total_distance = 0
  · simp [get_progress_percentage, hz]
  · have hpos : 0 < t.total_distance := by omega
    have hqpos : (0 : ℚ) < (t.total_distance : ℚ) := by exact_mod_cast hpos
    have hq1 : (0 : ℚ) ≤ (t.distance_from_source : ℚ) := by exact_mod_cast h1
    have hq2 : (t.distance_from_source : ℚ) ≤ (t.total_distance : ℚ) := by exact_mod_cast h2
    simp only [get_progress_percentage, if_neg hz]
    constructor
    · exact mul_nonneg (div_nonneg hq1 hqpos.le) (by norm_num)
    · have hle1 : (t.distance_from_source : ℚ) / (t.total_distance : ℚ) ≤ 1 :=
        (div_le_one hqpos).mpr hq2
      calc (t.distance_from_source : ℚ) / (t.total_distance : ℚ) * 100
          ≤ 1 * 100 := mul_le_mul_of_nonneg_right hle1 (by norm_num)
        _ = 100 := by norm_num

theorem progress_percentage_amended_witness :
    0 ≤ sample_train.distance_from_source ∧
    sample_train.distance_from_source ≤ sample_train.total_distance ∧
    (0 ≤ get_progress_percentage sample_train ∧
      get_progress_percentage sample_train ≤ 100) :=
  ⟨by decide, by decide,
    (progress_percentage_amended sample_train).2.2 (by decide) (by decide)⟩

/-- C1: the arrival lookup is case-insensitive in the queried code and
searches in the fixed order current station, upcoming stations, previous
stations, then non-stop points of upcoming ++ previous, returning on the
first match; a code found only as a non-stop point yields the
does-not-halt message (never the not-found message), and a code found
nowhere yields the not-found result naming the uppercased code. An
upcoming match in particular wins over any non-stop occurrence. -/
theorem expected_arrival_search_order (t : NewTrainStatusResponse) (code other : String) :
    (pyUpper code = pyUpper other →
      get_expected_arrival_at_station t code = get_expected_arrival_at_station t other) ∧
    (pyUpper t.current_station_code = pyUpper code →
      get_expected_arrival_at_station t code = current_station_message t (pyUpper code)) ∧
    (pyUpper t.current_station_code ≠ pyUpper code →
      ∀ s, t.upcoming_stations.find?
          (fun station => pyUpper station.station_code == pyUpper code) = some s →
        get_expected_arrival_at_station t code = upcoming_station_message s (pyUpper code)) ∧
    (pyUpper t.current_station_code ≠ pyUpper code →
      (∀ u ∈ t.upcoming_stations, pyUpper u.station_code ≠ pyUpper code) →
      ∀ s, t.previous_stations.find?
          (fun station => pyUpper station.station_code == pyUpper code) = some s →
        get_expected_arrival_at_station t code = previous_station_message s (pyUpper code)) ∧
    (pyUpper t.current_station_code ≠ pyUpper code →
      (∀ u ∈ t.upcoming_stations, pyUpper u.station_code ≠ pyUpper code) →
      (∀ q ∈ t.previous_stations, pyUpper q.station_code ≠ pyUpper code) →
      ∀ ns, (t.upcoming_stations.map UpcomingStation.non_stops ++
          t.previous_stations.map PreviousStation.non_stops).findSome?
            (fun station_non_stops => station_non_stops.find?
              (fun x => pyUpper x.station_code == pyUpper code)) = some ns →
        get_expected_arrival_at_station t code = non_stop_message ns (pyUpper code) ∧
        get_expected_arrival_at_station t code ≠
          station_not_found_message (pyUpper code)) ∧
    (pyUpper t.current_station_code ≠ pyUpper code →
      (∀ u ∈ t.upcoming_stations, pyUpper u.station_code ≠ pyUpper code) →
      (∀ q ∈ t.previous_stations, pyUpper q.station_code ≠ pyUpper code) →
      (∀ u ∈ t.upcoming_stations, ∀ x ∈ u.non_stops,
        pyUpper x.station_code ≠ pyUpper code) →
      (∀ q ∈ t.previous_stations, ∀ x ∈ q.non_stops,
        pyUpper x.station_code ≠ pyUpper code) →
      get_expected_arrival_at_station t code = station_not_found_message (pyUpper code)) := by
  have hfu : ∀ (hu : ∀ u ∈ t.upcoming_stations, pyUpper u.station_code ≠ pyUpper code),
      t.upcoming_stations.find?
        (fun station => pyUpper station.station_code == pyUpper code) = none :=
    fun hu => List.find?_eq_none.mpr
      (fun x hx hb => hu x hx (by simpa using hb))
  have hfp : ∀ (hq : ∀ q ∈ t.previous_stations, pyUpper q.station_code ≠ pyUpper code),
      t.previous_stations.find?
        (fun station => pyUpper station.station_code == pyUpper code) = none :=
    fun hq => List.find?_eq_none.mpr
      (fun x hx hb => hq x hx (by simpa using hb))
  refine ⟨?_, ?_, ?_, ?_, ?_, ?_⟩
  · intro h
    simp only [get_expected_arrival_at_station]
    rw [h]
  · intro h
    simp only [get_expected_arrival_at_station]
    rw [if_pos h]
  · intro hc s hs
    simp only [get_expected_arrival_at_station]
    rw [if_neg hc, hs]
  · intro hc hu s hs
    simp only [get_expected_arrival_at_station]
    rw [if_neg hc, hfu hu, hs]
  · intro hc hu hq ns hns
    have hmain : get_expected_arrival_at_station t code = non_stop_message ns (pyUpper code) := by
      simp only [get_expected_arrival_at_station]
      rw [if_neg hc, hfu hu, hfp hq, hns]
    refine ⟨hmain, ?_⟩
    rw [hmain]
    apply string_ne_of_getLast_ne
    rw [show non_stop_message ns (pyUpper code) =
      (ns.station_name ++ " (" ++ pyUpper code) ++
        ") is a non-stop station. Train does not halt here." from rfl]
    rw [show station_not_found_message (pyUpper code) =
      ("Station " ++ pyUpper code) ++ " not found in the train's route" from rfl]
    rw [data_getLast?_append _ _ (by decide), data_getLast?_append _ _ (by decide)]
    decide
  · intro hc hu hq hnu hnp
    simp only [get_expected_arrival_at_station]
    rw [if_neg hc, hfu hu, hfp hq]
    have hns : (t.upcoming_stations.map UpcomingStation.non_stops ++
        t.previous_stations.map PreviousStation.non_stops).findSome?
          (fun station_non_stops => station_non_stops.find?
            (fun x => pyUpper x.station_code == pyUpper code)) = none := by
      rw [List.findSome?_eq_none_iff]
      intro l hl
      rcases List.mem_append.mp hl with hm | hm
      · obtain ⟨u, hu', rfl⟩ := List.mem_map.mp hm
        exact List.find?_eq_none.mpr (fun x hx hb => hnu u hu' x hx (by simpa using hb))
      · obtain ⟨q, hq', rfl⟩ := List.mem_map.mp hm
        exact List.find?_eq_none.mpr (fun x hx hb => hnp q hq' x hx (by simpa using hb))
    rw [hns]

theorem expected_arrival_search_order_witness :
    pyUpper sample_train.current_station_code ≠ pyUpper "zzz" ∧
    get_expected_arrival_at_station sample_train "zzz" =
      station_not_found_message (pyUpper "zzz") :=
  ⟨by decide,
    (expected_arrival_search_order sample_train "zzz" "zzz").2.2.2.2.2
      (by decide) (by decide) (by decide) (by decide) (by decide)⟩

/-- C4: when the collected route entries carry pairwise-distinct sequence
indices, the assembled route string is invariant under any permutation of
the raw previous-stations and upcoming-stations input lists. -/
theorem get_train_route_perm_invariant (t : NewTrainStatusResponse)
    (prev' : List PreviousStation) (upc' : List UpcomingStation) (inc : Bool)
    (hp : t.previous_stations.Perm prev') (hu : t.upcoming_stations.Perm upc')
    (hn : ((route_entries t inc).map (fun e => e.1)).Nodup) :
    get_train_route { t with previous_stations := prev', upcoming_stations := upc' } inc =
      get_train_route t inc := by
  have hperm := route_entries_perm t prev' upc' inc hp hu
  have hprev : ({ t with previous_stations := prev', upcoming_stations := upc' } :
      NewTrainStatusResponse).previous_stations = prev' := rfl
  have hupc : ({ t with previous_stations := prev', upcoming_stations := upc' } :
      NewTrainStatusResponse).upcoming_stations = upc' := rfl
  by_cases hb : t.previous_stations = [] ∧ t.upcoming_stations = []
  · have hp' : prev' = [] := by
      rw [hb.1] at hp
      exact hp.symm.eq_nil
    have hu' : upc' = [] := by
      rw [hb.2] at hu
      exact hu.symm.eq_nil
    simp only [get_train_route, hprev, hupc]
    rw [if_pos ⟨hp', hu'⟩, if_pos hb]
  · have hb' : ¬(prev' = [] ∧ upc' = []) := by
      rintro ⟨h1, h2⟩
      apply hb
      constructor
      · rw [h1] at hp
        exact hp.eq_nil
      · rw [h2] at hu
        exact hu.eq_nil
    simp only [get_train_route, hprev, hupc]
    rw [if_neg hb', if_neg hb]
    have hn' : ((route_entries
        { t with previous_stations := prev', upcoming_stations := upc' } inc).map
          (fun e => e.1)).Nodup :=
      ((hperm.map (fun e => e.1)).nodup_iff).mpr hn
    rw [route_mergeSort_unique hperm hn']

theorem get_train_route_perm_invariant_witness :
    sample_train3.previous_stations.Perm [sample_previous2, sample_previous] ∧
    sample_train3.upcoming_stations.Perm [sample_upcoming] ∧
    ((route_entries sample_train3 true).map (fun e => e.1)).Nodup ∧
    get_train_route { sample_train3 with
        previous_stations := [sample_previous2, sample_previous],
        upcoming_stations := [sample_upcoming] } true =
      get_train_route sample_train3 true :=
  ⟨by decide, by decide, by decide,
    get_train_route_perm_invariant sample_train3 [sample_previous2, sample_previous]
      [sample_upcoming] true (by decide) (by decide) (by decide)⟩
